import Mathlib

/-!
Verification development for the cmux global proxy (Rust, `global-proxy/src/lib.rs`).

Strings from the Rust source are modelled as lists of characters (`Str`);
header maps as association lists with unique, lowercase keys — the invariant
maintained by the `http` crate `HeaderMap`, whose `insert` replaces every
previous value of a key and whose `get` returns the single stored value.

All definitions are direct translations of the corresponding Rust functions;
doc comments name the source function each one embeds.
-/

namespace GlobalProxy

/-- Rust `&str` values, modelled as lists of characters. -/
abbrev Str := List Char

/-- ASCII-lowercase a character, as Rust `to_ascii_lowercase` does per byte. -/
def asciiLower (c : Char) : Char :=
  if 65 ≤ c.toNat ∧ c.toNat ≤ 90 then Char.ofNat (c.toNat + 32) else c

/-- ASCII digit test (Rust `is_ascii_digit`). -/
def isDigitChar (c : Char) : Bool :=
  decide (48 ≤ c.toNat) && decide (c.toNat ≤ 57)

/-- Rust `eq_ignore_ascii_case` on strings: equal length and bytes equal after
ASCII lowering. -/
def eqIgnoreAsciiCase : Str → Str → Bool
  | [], [] => true
  | a :: as, b :: bs => decide (asciiLower a = asciiLower b) && eqIgnoreAsciiCase as bs
  | _, _ => false

/-- Rust `str::strip_prefix`: remove a leading pattern, or fail. -/
def stripPre : Str → Str → Option Str
  | [], s => some s
  | _ :: _, [] => none
  | p :: ps, c :: cs => if p = c then stripPre ps cs else none

/-- Rust `str::strip_suffix`, realised through `stripPre` on reversed lists. -/
def stripSuf (suf s : Str) : Option Str :=
  match stripPre suf.reverse s.reverse with
  | some pre => some pre.reverse
  | none => none

/-- Rust `str::split(sep)` for a single-character separator: always yields at
least one (possibly empty) segment. -/
def splitChar (sep : Char) : Str → List Str
  | [] => [[]]
  | c :: cs =>
    let r := splitChar sep cs
    if c = sep then [] :: r
    else
      match r with
      | h :: t => (c :: h) :: t
      | [] => [[c]]

/-- Rust `[&str]::join("-")`. -/
def joinDash (segs : List Str) : Str :=
  List.intercalate ['-'] segs

/-- Rust `str::parse::<u16>()`: optional leading plus sign, one or more ASCII
digits, value below 65536. -/
def parseU16 (s : Str) : Option Nat :=
  let t := match s with
    | '+' :: rest => rest
    | _ => s
  if t = [] then none
  else if t.all isDigitChar then
    let v := t.foldl (fun a c => a * 10 + (c.toNat - 48)) 0
    if v < 65536 then some v else none
  else none

/-- One decimal digit character (used by the model of Rust `u16::to_string`). -/
def digitChar (k : Nat) : Char :=
  if k = 0 then '0' else if k = 1 then '1' else if k = 2 then '2'
  else if k = 3 then '3' else if k = 4 then '4' else if k = 5 then '5'
  else if k = 6 then '6' else if k = 7 then '7' else if k = 8 then '8'
  else if k = 9 then '9' else '0'

/-- Fuelled digit expansion; the fuel always suffices when it exceeds the
argument. -/
def natToStrAux : Nat → Nat → Str
  | 0, _ => []
  | f + 1, n =>
    if n < 10 then [digitChar n]
    else natToStrAux f (n / 10) ++ [digitChar (n % 10)]

/-- Decimal representation of a natural number (Rust `to_string` on integers). -/
def natToStr (n : Nat) : Str := natToStrAux (n + 1) n

theorem digitChar_isDigit (k : Nat) : isDigitChar (digitChar k) = true := by
  unfold digitChar
  repeat' split
  all_goals decide

theorem natToStrAux_isDigit (fuel : Nat) :
    ∀ n, ∀ c ∈ natToStrAux fuel n, isDigitChar c = true := by
  induction fuel with
  | zero => intro n c hc; simp [natToStrAux] at hc
  | succ f ih =>
    intro n c hc
    rw [natToStrAux] at hc
    split at hc
    · simp only [List.mem_singleton] at hc
      exact hc ▸ digitChar_isDigit n
    · rcases List.mem_append.1 hc with h | h
      · exact ih (n / 10) c h
      · simp only [List.mem_singleton] at h
        exact h ▸ digitChar_isDigit (n % 10)

theorem natToStr_isDigit (n : Nat) : ∀ c ∈ natToStr n, isDigitChar c = true :=
  natToStrAux_isDigit (n + 1) n

theorem stripPre_append (p s : Str) : stripPre p (p ++ s) = some s := by
  induction p with
  | nil => rfl
  | cons c cs ih => simp [stripPre, ih]

/-! ## Header maps

The `http` crate `HeaderMap` stores lowercase names; `insert` drops every
previous value of the name and stores the single new one, `remove` drops the
name entirely, `get` returns the stored value.  We model the map as an
association list whose keys are the lowercase names. -/

abbrev HMap := List (Str × Str)

/-- `HeaderMap::get`: first entry with the given (lowercase) name. -/
def hget : HMap → Str → Option Str
  | [], _ => none
  | p :: rest, n => if p.1 = n then some p.2 else hget rest n

/-- `HeaderMap::remove`: drop every entry with the given name. -/
def hremove : HMap → Str → HMap
  | [], _ => []
  | p :: rest, n => if p.1 = n then hremove rest n else p :: hremove rest n

/-- `HeaderMap::insert`: drop every entry with the name, then store the value. -/
def hinsert (m : HMap) (n v : Str) : HMap :=
  hremove m n ++ [(n, v)]

/-- The names present in a header map. -/
def hkeys (m : HMap) : List Str := m.map Prod.fst

/-- Number of entries carrying a given name. -/
def countName : HMap → Str → Nat
  | [], _ => 0
  | p :: rest, n => (if p.1 = n then 1 else 0) + countName rest n

/-- `http::HeaderValue::from_str` accepts tab and every byte in 32..=255
except 127. -/
def headerValueCharOk (c : Char) : Bool :=
  decide (c.toNat = 9) || (decide (32 ≤ c.toNat) && decide (¬ c.toNat = 127))

/-- Validity of a whole header value under `HeaderValue::from_str`. -/
def headerValueValid (s : Str) : Bool := s.all headerValueCharOk

theorem natToStr_valid (n : Nat) : headerValueValid (natToStr n) = true := by
  have h := natToStr_isDigit n
  simp only [headerValueValid, List.all_eq_true]
  intro c hc
  have hd := h c hc
  simp only [isDigitChar, Bool.and_eq_true, decide_eq_true_eq] at hd
  simp only [headerValueCharOk, Bool.or_eq_true, Bool.and_eq_true, decide_eq_true_eq]
  omega

/-! ## Data model: routes, targets, behavior -/

/-- `PortRoute` (lib.rs). -/
structure PortRouteT where
  port : Nat
  morph_id : Str
  skip_service_worker : Bool
  deriving DecidableEq

/-- `CmuxRoute` (lib.rs). -/
structure CmuxRouteT where
  port : Nat
  workspace_header : Option Str
  morph_id : Str
  deriving DecidableEq

/-- `WorkspaceRoute` (lib.rs). -/
structure WorkspaceRouteT where
  workspace : Str
  port : Nat
  vm_slug : Str
  deriving DecidableEq

/-- A plain HTTP response: status, version (11 = HTTP/1.1), header map, body.
Bodies are byte strings; streaming hyper bodies are materialised. -/
structure RespT where
  status : Nat
  version : Nat
  headers : HMap
  body : Str
  deriving DecidableEq

/-- `text_response` (lib.rs): plain-text response with the given status. -/
def text_response (status : Nat) (body : Str) : RespT :=
  { status := status
    version := 11
    headers := [("content-type".data, "text/plain; charset=utf-8".data)]
    body := body }

/-- `Route` (lib.rs): the tagged sum produced by the route decoder. -/
inductive RouteT where
  | Port (r : PortRouteT)
  | Cmux (r : CmuxRouteT)
  | Workspace (r : WorkspaceRouteT)
  | Invalid (resp : RespT)
  deriving DecidableEq

/-- `parse_route` (lib.rs, lines 869-995): decode a subdomain into a route. -/
def parse_route (subdomain : Str) : RouteT :=
  match stripPre "port-".data subdomain with
  | some rest =>
    match splitChar '-' rest with
    | s0 :: s1 :: tl =>
      match parseU16 s0 with
      | some port =>
        let morph_id := joinDash (s1 :: tl)
        if morph_id = [] then
          RouteT.Invalid (text_response 400 "Invalid cmux proxy subdomain".data)
        else
          RouteT.Port { port := port, morph_id := morph_id,
                        skip_service_worker := port == 39378 }
      | none => RouteT.Invalid (text_response 400 "Invalid cmux proxy subdomain".data)
    | _ => RouteT.Invalid (text_response 400 "Invalid cmux proxy subdomain".data)
  | none =>
  match stripPre "cmux-".data subdomain with
  | some rest =>
    match splitChar '-' rest with
    | s0 :: s1 :: tl =>
      if s0 = [] then
        RouteT.Invalid (text_response 400 "Missing morph id in cmux proxy subdomain".data)
      else
        match parseU16 ((s1 :: tl).getLastD []) with
        | some port =>
          let scope_segments := (s1 :: tl).dropLast
          RouteT.Cmux
            { port := port
              workspace_header :=
                if scope_segments = [] ∨
                    (scope_segments.length = 1 ∧
                      eqIgnoreAsciiCase (scope_segments.headD []) "base".data = true) then
                  none
                else some (joinDash scope_segments)
              morph_id := s0 }
        | none => RouteT.Invalid (text_response 400 "Invalid port in cmux proxy subdomain".data)
    | _ => RouteT.Invalid (text_response 400 "Invalid cmux proxy subdomain".data)
  | none =>
    let parts := splitChar '-' subdomain
    if parts.length < 3 then
      RouteT.Invalid (text_response 400 "Invalid cmux subdomain".data)
    else
      let port_segment := parts.getD (parts.length - 2) []
      let workspace_parts := parts.take (parts.length - 2)
      let vm_slug := parts.getLastD []
      if workspace_parts = [] then
        RouteT.Invalid (text_response 400 "Invalid cmux subdomain".data)
      else
        let workspace := joinDash workspace_parts
        match parseU16 port_segment with
        | some port =>
          if vm_slug = [] then
            RouteT.Invalid (text_response 400 "Invalid cmux subdomain".data)
          else
            RouteT.Workspace { workspace := workspace, port := port, vm_slug := vm_slug }
        | none => RouteT.Invalid (text_response 400 "Invalid port in subdomain".data)

/-! ## Host parsing and the dispatcher -/

/-- Split a string at its last colon, returning the parts before and after. -/
def splitLastColon : Str → Option (Str × Str)
  | [] => none
  | c :: cs =>
    match splitLastColon cs with
    | some (pre, suf) => some (c :: pre, suf)
    | none => if c = ':' then some ([], cs) else none

/-- `normalize_host` (lib.rs): ASCII-lowercase, then drop a trailing
colon-and-digits port suffix (the digits may be empty). -/
def normalize_host (v : Str) : Str :=
  let h := v.map asciiLower
  match splitLastColon h with
  | some (pre, suf) => if suf.all isDigitChar then pre else h
  | none => h

/-- HTTP method, as far as the proxy inspects it. -/
inductive MethodT where
  | GET
  | HEAD
  | OPTIONS
  | POST
  deriving DecidableEq

/-- An inbound request: method, path (with query), version, header map
(lowercase names, as parsed by hyper), body. -/
structure ReqT where
  method : MethodT
  path : Str
  version : Nat
  headers : HMap
  body : Str
  deriving DecidableEq

/-- `extract_host` (lib.rs): prefer `X-Forwarded-Host`, else `Host`, then
normalize. -/
def extract_host (req : ReqT) : Option Str :=
  match hget req.headers "x-forwarded-host".data with
  | some v => some (normalize_host v)
  | none =>
    match hget req.headers "host".data with
    | some v => some (normalize_host v)
    | none => none

/-- `parse_cmux_host` (lib.rs): recognize the platform apexes and split off a
subdomain. -/
def parse_cmux_host (host : Str) : Option (Option Str × Str) :=
  if host = "cmux.sh".data ∨ host = "cmux.local".data then
    some (none, "cmux.sh".data)
  else
    match stripSuf ".cmux.sh".data host with
    | some pre => some ((if pre = [] then none else some pre), "cmux.sh".data)
    | none =>
      if host = "cmux.localhost".data then some (none, "cmux.localhost".data)
      else
        match stripSuf ".cmux.localhost".data host with
        | some pre => some ((if pre = [] then none else some pre), "cmux.localhost".data)
        | none =>
          if host = "cmux.app".data then some (none, "cmux.app".data)
          else
            match stripSuf ".cmux.app".data host with
            | some pre => some ((if pre = [] then none else some pre), "cmux.app".data)
            | none => none

/-- `is_loop_header` (lib.rs): the `X-Cmux-Proxied` header equals `true`
case-insensitively. -/
def is_loop_header (req : ReqT) : Bool :=
  match hget req.headers "x-cmux-proxied".data with
  | some v => eqIgnoreAsciiCase v "true".data
  | none => false

/-- URI scheme as used by the proxy. -/
inductive SchemeT where
  | http
  | https
  deriving DecidableEq

/-- `Target` (lib.rs): upstream destination. -/
inductive Target where
  | BackendPort (port : Nat)
  | Absolute (scheme : SchemeT) (host : Str) (port : Option Nat)
  deriving DecidableEq

/-- `ProxyBehavior` (lib.rs). -/
structure ProxyBehavior where
  skip_service_worker : Bool
  add_cors : Bool
  strip_cors_headers : Bool
  workspace_header : Option Str
  port_header : Option Str
  frame_ancestors : Option Str
  deriving DecidableEq

/-- `AppState` (lib.rs), restricted to the pure configuration fields. -/
structure AppStateT where
  backend_host : Str
  backend_scheme : SchemeT
  morph_domain_suffix : Option Str
  workspace_domain_suffix : Option Str
  deriving DecidableEq

/-- `CSP_FRAME_ANCESTORS_PORT_39378` (lib.rs line 34). -/
def CSP_FRAME_ANCESTORS_PORT_39378 : Str :=
  "frame-ancestors 'self' https://cmux.local http://cmux.local https://www.cmux.sh https://cmux.sh https://www.cmux.dev https://cmux.dev http://localhost:5173;".data

/-- Target for a Port route (lib.rs lines 196-205). -/
def portTarget (st : AppStateT) (r : PortRouteT) : Target :=
  match st.morph_domain_suffix with
  | some suffix =>
    Target.Absolute SchemeT.https
      ("port-".data ++ natToStr r.port ++ "-morphvm-".data ++ r.morph_id ++ suffix) none
  | none => Target.BackendPort r.port

/-- Behavior for a Port route (lib.rs lines 207-224). -/
def portBehavior (r : PortRouteT) : ProxyBehavior :=
  { skip_service_worker := r.skip_service_worker
    add_cors := false
    strip_cors_headers := r.skip_service_worker
    workspace_header := none
    port_header := none
    frame_ancestors :=
      if r.skip_service_worker then some CSP_FRAME_ANCESTORS_PORT_39378 else none }

/-- Target for a Cmux route (lib.rs lines 245-254): with a morph suffix the
upstream host hard-codes port 39379 regardless of the routed port. -/
def cmuxTarget (st : AppStateT) (r : CmuxRouteT) : Target :=
  match st.morph_domain_suffix with
  | some suffix =>
    Target.Absolute SchemeT.https
      ("port-39379-morphvm-".data ++ r.morph_id ++ suffix) none
  | none => Target.BackendPort r.port

/-- Behavior for a Cmux route (lib.rs lines 256-269). -/
def cmuxBehavior (r : CmuxRouteT) : ProxyBehavior :=
  { skip_service_worker := true
    add_cors := !(r.port == 39378)
    strip_cors_headers := r.port == 39378
    workspace_header := r.workspace_header
    port_header := some (natToStr r.port)
    frame_ancestors := none }

/-- Target for a Workspace route (lib.rs lines 276-285). -/
def workspaceTarget (st : AppStateT) (r : WorkspaceRouteT) : Target :=
  match st.workspace_domain_suffix with
  | some suffix => Target.Absolute SchemeT.https (r.vm_slug ++ suffix) none
  | none => Target.BackendPort r.port

/-- Behavior for a Workspace route (lib.rs lines 287-300). -/
def workspaceBehavior (r : WorkspaceRouteT) : ProxyBehavior :=
  { skip_service_worker := false
    add_cors := false
    strip_cors_headers := false
    workspace_header := some r.workspace
    port_header := some (natToStr r.port)
    frame_ancestors := none }

/-- Remove a sequence of header names in order. -/
def hremoveAll (m : HMap) : List Str → HMap
  | [] => m
  | n :: rest => hremoveAll (hremove m n) rest

/-- Insert a sequence of name-value pairs in order. -/
def hinsertAll (m : HMap) : HMap → HMap
  | [] => m
  | q :: rest => hinsertAll (hinsert m q.1 q.2) rest

/-- The six CORS headers set by `add_cors_headers` (lib.rs lines 797-816),
in insertion order. -/
def corsPairs : HMap :=
  [("access-control-allow-origin".data, "*".data),
   ("access-control-allow-methods".data,
     "GET, POST, PUT, DELETE, PATCH, OPTIONS, HEAD".data),
   ("access-control-allow-headers".data, "*".data),
   ("access-control-expose-headers".data, "*".data),
   ("access-control-allow-credentials".data, "true".data),
   ("access-control-max-age".data, "86400".data)]

/-- `add_cors_headers` (lib.rs lines 797-816): six overwriting inserts. -/
def add_cors_headers (m : HMap) : HMap := hinsertAll m corsPairs

/-- `cors_response` (lib.rs lines 1030-1039). -/
def cors_response (status : Nat) : RespT :=
  { status := status, version := 11, headers := add_cors_headers [], body := [] }

/-- A bare `Response::builder().status(s)` with empty body (204 preflight
answers in lib.rs lines 189-194 and 236-241). -/
def emptyStatusResponse (status : Nat) : RespT :=
  { status := status, version := 11, headers := [], body := [] }

/-- True when the host carries a platform subdomain: the only case in which
the `/version` match in `handle_request` falls through to routing. -/
def isPlatformSubdomainHost (host : Str) : Bool :=
  match parse_cmux_host host with
  | some (some _, _) => true
  | _ => false

/-- What `handle_request` decides for a request.  `healthJson`, `versionJson`
and `serviceWorker` stand for the concrete `json_response` /
`service_worker_response` bodies, which involve build-time constants and the
clock; `forward` is delegation to `forward_request`. -/
inductive Outcome where
  | healthJson
  | versionJson
  | serviceWorker
  | response (r : RespT)
  | forward (t : Target) (b : ProxyBehavior)
  deriving DecidableEq

/-- The route-dispatch stage of `handle_request` (lib.rs lines 179-303):
the `/proxy-sw.js` short-circuit, then the match on the decoded route with
the loop guard, the OPTIONS preflight answers, and delegation to the
forwarder. -/
def routeDispatch (st : AppStateT) (req : ReqT) (sub : Str) : Outcome :=
  if req.path = "/proxy-sw.js".data then Outcome.serviceWorker
  else
    match parse_route sub with
    | RouteT.Port r =>
      if is_loop_header req then
        Outcome.response (text_response 508 "Loop detected in proxy".data)
      else if r.port = 39378 ∧ req.method = MethodT.OPTIONS then
        Outcome.response (emptyStatusResponse 204)
      else
        Outcome.forward (portTarget st r) (portBehavior r)
    | RouteT.Cmux r =>
      if is_loop_header req then
        Outcome.response (text_response 508 "Loop detected in proxy".data)
      else if req.method = MethodT.OPTIONS then
        if r.port = 39378 then Outcome.response (emptyStatusResponse 204)
        else Outcome.response (cors_response 204)
      else
        Outcome.forward (cmuxTarget st r) (cmuxBehavior r)
    | RouteT.Workspace r =>
      if is_loop_header req then
        Outcome.response (text_response 508 "Loop detected in proxy".data)
      else
        Outcome.forward (workspaceTarget st r) (workspaceBehavior r)
    | RouteT.Invalid resp => Outcome.response resp

/-- The host-dispatch stage of `handle_request` (lib.rs lines 157-307): the
`/version` short-circuit, then the platform-host match with the apex answer
and the 502 for unrecognized hosts. -/
def hostDispatch (st : AppStateT) (req : ReqT) (host : Str) : Outcome :=
  if req.path = "/version".data ∧ isPlatformSubdomainHost host = false then
    Outcome.versionJson
  else
    match parse_cmux_host host with
    | some (subOpt, _) =>
      match subOpt with
      | none => Outcome.response (text_response 200 "cmux!".data)
      | some sub => routeDispatch st req sub
    | none => Outcome.response (text_response 502 "Not a cmux domain".data)

/-- `handle_request` (lib.rs lines 136-307), up to delegation to the
forwarder. -/
def handle_request (st : AppStateT) (req : ReqT) : Outcome :=
  if req.path = "/health".data then Outcome.healthJson
  else
    match extract_host req with
    | none =>
      Outcome.response (text_response 400 "Missing host header for proxied request".data)
    | some host => hostDispatch st req host

/-- Reduction of `handle_request` once the host is known. -/
theorem handle_request_with_host (st : AppStateT) (req : ReqT) (host : Str)
    (hhealth : req.path ≠ "/health".data)
    (hhost : extract_host req = some host) :
    handle_request st req = hostDispatch st req host := by
  unfold handle_request
  rw [if_neg hhealth, hhost]

/-- Reduction of `hostDispatch` once the subdomain is known. -/
theorem hostDispatch_with_sub (st : AppStateT) (req : ReqT) (host sub d : Str)
    (hsub : parse_cmux_host host = some (some sub, d))
    (hplat : isPlatformSubdomainHost host = true) :
    hostDispatch st req host = routeDispatch st req sub := by
  unfold hostDispatch
  rw [if_neg (fun h => by rw [hplat] at h; exact absurd h.2 (by simp)), hsub]

/-! ## Claim C1: the `port-` branch of the route decoder -/

/-- Reduction of `parse_route` on a subdomain with the `port-` prefix. -/
theorem parse_route_port_append (rest : Str) :
    parse_route ("port-".data ++ rest) =
      (match splitChar '-' rest with
      | s0 :: s1 :: tl =>
        match parseU16 s0 with
        | some port =>
          if joinDash (s1 :: tl) = [] then
            RouteT.Invalid (text_response 400 "Invalid cmux proxy subdomain".data)
          else
            RouteT.Port { port := port, morph_id := joinDash (s1 :: tl),
                          skip_service_worker := port == 39378 }
        | none => RouteT.Invalid (text_response 400 "Invalid cmux proxy subdomain".data)
      | _ => RouteT.Invalid (text_response 400 "Invalid cmux proxy subdomain".data)) := by
  unfold parse_route
  rw [stripPre_append]

/-- Reduction of `parse_route` on a subdomain with the `cmux-` prefix. -/
theorem parse_route_cmux_append (rest : Str) :
    parse_route ("cmux-".data ++ rest) =
      (match splitChar '-' rest with
      | s0 :: s1 :: tl =>
        if s0 = [] then
          RouteT.Invalid (text_response 400 "Missing morph id in cmux proxy subdomain".data)
        else
          match parseU16 ((s1 :: tl).getLastD []) with
          | some port =>
            RouteT.Cmux
              { port := port
                workspace_header :=
                  if (s1 :: tl).dropLast = [] ∨
                      ((s1 :: tl).dropLast.length = 1 ∧
                        eqIgnoreAsciiCase ((s1 :: tl).dropLast.headD []) "base".data = true) then
                    none
                  else some (joinDash (s1 :: tl).dropLast)
                morph_id := s0 }
          | none => RouteT.Invalid (text_response 400 "Invalid port in cmux proxy subdomain".data)
      | _ => RouteT.Invalid (text_response 400 "Invalid cmux proxy subdomain".data)) := by
  have h0 : stripPre "port-".data ("cmux-".data ++ rest) = none := rfl
  unfold parse_route
  rw [h0, stripPre_append]

/-- C1.  For every subdomain beginning with `port-`, splitting the remainder
by `-`: with at least two segments, a first segment parsing as u16 and a
non-empty rejoined morph id, the decoder returns the corresponding
`PortRoute` with `skip_service_worker` exactly when the port is 39378
(hyphens inside the morph id being preserved by the rejoin); in every other
case it returns `Invalid` carrying the 400 text response. -/
theorem port_route_decoding (rest : Str) :
    (∀ p : Nat,
      2 ≤ (splitChar '-' rest).length →
      parseU16 ((splitChar '-' rest).headD []) = some p →
      joinDash ((splitChar '-' rest).drop 1) ≠ [] →
      parse_route ("port-".data ++ rest) =
        RouteT.Port
          { port := p
            morph_id := joinDash ((splitChar '-' rest).drop 1)
            skip_service_worker := p == 39378 })
    ∧ (((splitChar '-' rest).length < 2 ∨
        parseU16 ((splitChar '-' rest).headD []) = none ∨
        joinDash ((splitChar '-' rest).drop 1) = []) →
      parse_route ("port-".data ++ rest) =
        RouteT.Invalid (text_response 400 "Invalid cmux proxy subdomain".data)) := by
  rw [parse_route_port_append]
  constructor
  · intro p hlen hp hm
    cases hseg : splitChar '-' rest with
    | nil => rw [hseg] at hlen; simp at hlen
    | cons s0 t0 =>
      cases t0 with
      | nil => rw [hseg] at hlen; simp at hlen
      | cons s1 tl =>
        rw [hseg] at hp hm
        simp only [List.headD_cons] at hp
        simp only [List.drop_one, List.tail_cons] at hm
        dsimp only
        rw [hp]
        dsimp only
        rw [if_neg hm]
        simp only [List.drop_one, List.tail_cons]
  · intro hbad
    cases hseg : splitChar '-' rest with
    | nil => rfl
    | cons s0 t0 =>
      cases t0 with
      | nil => rfl
      | cons s1 tl =>
        rcases hbad with hlen | hp | hm
        · rw [hseg] at hlen; simp at hlen; omega
        · rw [hseg] at hp
          simp only [List.headD_cons] at hp
          dsimp only
          rw [hp]
        · rw [hseg] at hm
          simp only [List.drop_one, List.tail_cons] at hm
          cases hps : parseU16 s0 with
          | none => dsimp only; rw [hps]
          | some q => dsimp only; rw [hps]; dsimp only; rw [if_pos hm]

/-- Witness for C1 at a concrete input with hyphens inside the morph id. -/
theorem port_route_decoding_witness :
    parse_route ("port-".data ++ "8080-morph-abc-def".data) =
      RouteT.Port
        { port := 8080
          morph_id := "morph-abc-def".data
          skip_service_worker := false } := by
  have h := (port_route_decoding "8080-morph-abc-def".data).1 8080
    (by decide) (by decide) (by decide)
  rw [h]
  decide

/-! ## Claim C2: the `cmux-` branch of the route decoder -/

/-- C2.  For every subdomain beginning with `cmux-` whose remainder splits
into at least two segments with a non-empty first segment and a last segment
parsing as u16, the decoder returns a `CmuxRoute` whose morph id is the
first segment, whose port is the parsed last segment, and whose workspace
header is `none` exactly when the middle segments are empty or the single
case-insensitive segment `base`, and otherwise rejoins the middle segments
with `-`. -/
theorem cmux_route_decoding (rest : Str) (p : Nat)
    (hlen : 2 ≤ (splitChar '-' rest).length)
    (hmorph : (splitChar '-' rest).headD [] ≠ [])
    (hport : parseU16 ((splitChar '-' rest).getLastD []) = some p) :
    parse_route ("cmux-".data ++ rest) =
      RouteT.Cmux
        { port := p
          workspace_header :=
            if ((splitChar '-' rest).drop 1).dropLast = [] ∨
                (((splitChar '-' rest).drop 1).dropLast.length = 1 ∧
                  eqIgnoreAsciiCase
                    (((splitChar '-' rest).drop 1).dropLast.headD []) "base".data = true)
            then none
            else some (joinDash (((splitChar '-' rest).drop 1).dropLast))
          morph_id := (splitChar '-' rest).headD [] } := by
  rw [parse_route_cmux_append]
  cases hseg : splitChar '-' rest with
  | nil => rw [hseg] at hlen; simp at hlen
  | cons s0 t0 =>
    cases t0 with
    | nil => rw [hseg] at hlen; simp at hlen
    | cons s1 tl =>
      rw [hseg] at hmorph hport
      simp only [List.headD_cons] at hmorph
      simp only [List.getLastD_cons] at hport
      dsimp only
      rw [if_neg hmorph]
      simp only [List.getLastD_cons]
      rw [hport]
      simp only [List.headD_cons, List.drop_one, List.tail_cons]

/-- Witness for C2 at a concrete input whose scope is `base`. -/
theorem cmux_route_decoding_witness :
    parse_route ("cmux-".data ++ "morph9-base-3000".data) =
      RouteT.Cmux { port := 3000, workspace_header := none, morph_id := "morph9".data } := by
  have h := cmux_route_decoding "morph9-base-3000".data 3000
    (by decide) (by decide) (by decide)
  rw [h]
  decide

/-! ## Claims C5 and C6: dispatcher error paths -/

/-- A default configuration (backend 127.0.0.1 over http, no suffixes). -/
def sampleState : AppStateT :=
  { backend_host := "127.0.0.1".data
    backend_scheme := SchemeT.http
    morph_domain_suffix := none
    workspace_domain_suffix := none }

/-- A `/version` request whose host is not a platform host. -/
def versionReqNonPlatform : ReqT :=
  { method := MethodT.GET
    path := "/version".data
    version := 11
    headers := [("host".data, "example.com".data)]
    body := [] }

/-- C5 counterexample: for path `/version` with the unrecognized host
`example.com`, `handle_request` answers the version JSON, not the claimed
502 `Not a cmux domain`. -/
theorem version_non_platform_counterexample :
    extract_host versionReqNonPlatform = some "example.com".data ∧
    parse_cmux_host "example.com".data = none ∧
    handle_request sampleState versionReqNonPlatform = Outcome.versionJson ∧
    handle_request sampleState versionReqNonPlatform ≠
      Outcome.response (text_response 502 "Not a cmux domain".data) := by
  decide

/-- C5 as amended: with a present host that is not a platform host, the
dispatcher answers 502 `Not a cmux domain` whenever the path is neither
`/health` nor `/version`; the `/version` short-circuit answers the version
JSON exactly when the host is not a platform host carrying a subdomain —
which includes unrecognized hosts. -/
theorem non_platform_host_dispatch (st : AppStateT) (req : ReqT) (host : Str)
    (hhealth : req.path ≠ "/health".data)
    (hhost : extract_host req = some host) :
    (parse_cmux_host host = none → req.path ≠ "/version".data →
      handle_request st req = Outcome.response (text_response 502 "Not a cmux domain".data))
    ∧ (req.path = "/version".data → isPlatformSubdomainHost host = false →
      handle_request st req = Outcome.versionJson) := by
  rw [handle_request_with_host st req host hhealth hhost]
  unfold hostDispatch
  constructor
  · intro hplat hver
    rw [if_neg (fun h => hver h.1), hplat]
  · intro hver hsub
    rw [if_pos ⟨hver, hsub⟩]

/-- Witness for the amended C5 at a concrete request. -/
theorem non_platform_host_dispatch_witness :
    handle_request sampleState
      { method := MethodT.GET
        path := "/x".data
        version := 11
        headers := [("host".data, "example.com".data)]
        body := [] } =
      Outcome.response (text_response 502 "Not a cmux domain".data) :=
  (non_platform_host_dispatch sampleState _ "example.com".data
      (by decide) (by decide)).1 (by decide) (by decide)

/-- A `/health` request on a valid Port subdomain that carries the loop
header. -/
def loopHealthReq : ReqT :=
  { method := MethodT.GET
    path := "/health".data
    version := 11
    headers := [("host".data, "port-80-abc.cmux.sh".data),
                ("x-cmux-proxied".data, "true".data)]
    body := [] }

/-- C6 counterexample: a request whose subdomain decodes to a Port route,
whose path is not `/proxy-sw.js`, and which carries `X-Cmux-Proxied: true`,
is answered with the health JSON rather than 508, because the `/health`
short-circuit runs before the loop guard. -/
theorem loop_guard_health_counterexample :
    extract_host loopHealthReq = some "port-80-abc.cmux.sh".data ∧
    parse_cmux_host "port-80-abc.cmux.sh".data =
      some (some "port-80-abc".data, "cmux.sh".data) ∧
    parse_route "port-80-abc".data =
      RouteT.Port { port := 80, morph_id := "abc".data, skip_service_worker := false } ∧
    is_loop_header loopHealthReq = true ∧
    loopHealthReq.path ≠ "/proxy-sw.js".data ∧
    handle_request sampleState loopHealthReq = Outcome.healthJson ∧
    handle_request sampleState loopHealthReq ≠
      Outcome.response (text_response 508 "Loop detected in proxy".data) := by
  decide

/-- The platform-subdomain test holds whenever parsing yields a subdomain. -/
theorem isPlatformSubdomainHost_of_parse (host sub d : Str)
    (h : parse_cmux_host host = some (some sub, d)) :
    isPlatformSubdomainHost host = true := by
  unfold isPlatformSubdomainHost
  rw [h]

/-- C6 as amended: for every request whose path is neither `/health` nor
`/proxy-sw.js`, whose host carries a subdomain decoding to a Port, Cmux or
Workspace route, and which carries `X-Cmux-Proxied: true` case-insensitively,
the dispatcher answers 508 `Loop detected in proxy` — regardless of route
kind and method — and does not forward the request. -/
theorem loop_guard_508 (st : AppStateT) (req : ReqT) (host sub d : Str)
    (hhealth : req.path ≠ "/health".data)
    (hsw : req.path ≠ "/proxy-sw.js".data)
    (hhost : extract_host req = some host)
    (hsub : parse_cmux_host host = some (some sub, d))
    (hroute : ∀ resp, parse_route sub ≠ RouteT.Invalid resp)
    (hloop : is_loop_header req = true) :
    handle_request st req =
      Outcome.response (text_response 508 "Loop detected in proxy".data) := by
  rw [handle_request_with_host st req host hhealth hhost,
    hostDispatch_with_sub st req host sub d hsub
      (isPlatformSubdomainHost_of_parse host sub d hsub)]
  unfold routeDispatch
  rw [if_neg hsw]
  cases hr : parse_route sub with
  | Port r => simp only [hloop, if_true]
  | Cmux r => simp only [hloop, if_true]
  | Workspace r => simp only [hloop, if_true]
  | Invalid resp => exact absurd hr (hroute resp)

/-- Witness for the amended C6: an uppercase `TRUE` loop header on a Port
route is answered 508. -/
theorem loop_guard_508_witness :
    handle_request sampleState
      { method := MethodT.GET
        path := "/x".data
        version := 11
        headers := [("host".data, "port-80-abc.cmux.sh".data),
                    ("x-cmux-proxied".data, "TRUE".data)]
        body := [] } =
      Outcome.response (text_response 508 "Loop detected in proxy".data) :=
  loop_guard_508 sampleState _ "port-80-abc.cmux.sh".data "port-80-abc".data
    "cmux.sh".data (by decide) (by decide) (by decide) (by decide)
    (fun resp h => by
      rw [show parse_route "port-80-abc".data =
        RouteT.Port { port := 80, morph_id := "abc".data, skip_service_worker := false }
        from by decide] at h
      exact RouteT.noConfusion h)
    (by decide)

/-! ## Header map lemmas -/

/-- Left-biased choice on optional values. -/
def firstSome (a b : Option Str) : Option Str :=
  match a with
  | some v => some v
  | none => b

theorem firstSome_none (a : Option Str) : firstSome a none = a := by
  cases a <;> rfl

theorem hget_append (a b : HMap) (n : Str) :
    hget (a ++ b) n = firstSome (hget a n) (hget b n) := by
  induction a with
  | nil => rfl
  | cons p rest ih =>
    by_cases h : p.1 = n
    · simp [hget, h, firstSome]
    · simp [hget, h, ih]

theorem hget_hremove_self (m : HMap) (n : Str) : hget (hremove m n) n = none := by
  induction m with
  | nil => rfl
  | cons p rest ih =>
    by_cases h : p.1 = n
    · simp [hremove, h, ih]
    · simp [hremove, hget, h, ih]

theorem hget_hremove_ne (m : HMap) (n k : Str) (h : n ≠ k) :
    hget (hremove m k) n = hget m n := by
  induction m with
  | nil => rfl
  | cons p rest ih =>
    by_cases hp : p.1 = k
    · have hpn : p.1 ≠ n := fun e => h (e.symm.trans hp)
      simp [hremove, hget, hp, hpn, ih, Ne.symm h]
    · by_cases hn : p.1 = n <;> simp [hremove, hget, hp, hn, ih, h]

theorem hget_hinsert_self (m : HMap) (k v : Str) : hget (hinsert m k v) k = some v := by
  unfold hinsert
  rw [hget_append, hget_hremove_self]
  simp [firstSome, hget]

theorem hget_hinsert_ne (m : HMap) (k v n : Str) (h : n ≠ k) :
    hget (hinsert m k v) n = hget m n := by
  unfold hinsert
  rw [hget_append, hget_hremove_ne m n k h]
  cases hm : hget m n with
  | some w => rfl
  | none => simp [hget, firstSome, Ne.symm h]

/-! ## Outbound request headers and claim C3 -/

/-- The outbound header mutation of `forward_request` (lib.rs lines 368-389):
set `Host` when the authority is a valid header value, set
`X-Cmux-Proxied: true`, then insert or remove `X-Cmux-Port-Internal` and
`X-Cmux-Workspace-Internal` according to the behavior. -/
def outboundHeaders (b : ProxyBehavior) (authority : Str) (h : HMap) : HMap :=
  let h1 := if headerValueValid authority = true then hinsert h "host".data authority else h
  let h2 := hinsert h1 "x-cmux-proxied".data "true".data
  let h3 :=
    match b.port_header with
    | some p => if headerValueValid p = true then hinsert h2 "x-cmux-port-internal".data p else h2
    | none => hremove h2 "x-cmux-port-internal".data
  match b.workspace_header with
  | some w =>
    if headerValueValid w = true then hinsert h3 "x-cmux-workspace-internal".data w else h3
  | none => hremove h3 "x-cmux-workspace-internal".data

/-- C3.  For every Cmux route: with a configured morph suffix the target is
`Absolute { https, "port-39379-morphvm-<morph_id><suffix>", none }` — the
upstream port fixed at 39379 independently of the routed port — while without
a suffix it is `BackendPort` of the routed port; and in both cases the
outbound `X-Cmux-Port-Internal` header carries the decimal routed port. -/
theorem cmux_target_resolution (st : AppStateT) (r : CmuxRouteT)
    (authority : Str) (h : HMap) :
    (∀ suffix, st.morph_domain_suffix = some suffix →
      cmuxTarget st r = Target.Absolute SchemeT.https
        ("port-39379-morphvm-".data ++ r.morph_id ++ suffix) none)
    ∧ (st.morph_domain_suffix = none → cmuxTarget st r = Target.BackendPort r.port)
    ∧ hget (outboundHeaders (cmuxBehavior r) authority h) "x-cmux-port-internal".data
        = some (natToStr r.port) := by
  refine ⟨?_, ?_, ?_⟩
  · intro suffix hs
    unfold cmuxTarget
    rw [hs]
  · intro hs
    unfold cmuxTarget
    rw [hs]
  · unfold outboundHeaders cmuxBehavior
    dsimp only
    rw [if_pos (natToStr_valid r.port)]
    cases hw : r.workspace_header with
    | none =>
      rw [hget_hremove_ne _ _ _ (by decide), hget_hinsert_self]
    | some w =>
      dsimp only
      by_cases hv : headerValueValid w = true
      · rw [if_pos hv, hget_hinsert_ne _ _ _ _ (by decide), hget_hinsert_self]
      · rw [if_neg hv, hget_hinsert_self]

/-- Witness for C3 with and without a morph suffix. -/
theorem cmux_target_resolution_witness :
    cmuxTarget
        { backend_host := "127.0.0.1".data
          backend_scheme := SchemeT.http
          morph_domain_suffix := some ".m.example".data
          workspace_domain_suffix := none }
        { port := 3000, workspace_header := none, morph_id := "abc".data } =
      Target.Absolute SchemeT.https "port-39379-morphvm-abc.m.example".data none ∧
    cmuxTarget sampleState
        { port := 3000, workspace_header := none, morph_id := "abc".data } =
      Target.BackendPort 3000 ∧
    hget
        (outboundHeaders
          (cmuxBehavior { port := 3000, workspace_header := none, morph_id := "abc".data })
          "127.0.0.1:3000".data [])
        "x-cmux-port-internal".data = some "3000".data := by
  refine ⟨?_, ?_, ?_⟩
  · have h := (cmux_target_resolution
      { backend_host := "127.0.0.1".data
        backend_scheme := SchemeT.http
        morph_domain_suffix := some ".m.example".data
        workspace_domain_suffix := none }
      { port := 3000, workspace_header := none, morph_id := "abc".data }
      "127.0.0.1:3000".data []).1 ".m.example".data rfl
    rw [h]
    decide
  · exact (cmux_target_resolution sampleState
      { port := 3000, workspace_header := none, morph_id := "abc".data }
      "127.0.0.1:3000".data []).2.1 rfl
  · have h := (cmux_target_resolution sampleState
      { port := 3000, workspace_header := none, morph_id := "abc".data }
      "127.0.0.1:3000".data []).2.2
    rw [h]
    decide

/-! ## Claim C7: WebSocket upgrade and upstream dial failure -/

/-- `pump_websocket` (lib.rs lines 638-704), up to the upstream dial: the
dial (`connect_async`) either succeeds, after which frames are pumped, or
fails, in which case the error propagates to the spawn handler in
`handle_websocket`, which only logs it. -/
def pump_websocket_model (dialOk : Bool) : Except Str Unit :=
  if dialOk then Except.ok () else Except.error "websocket proxy error".data

/-- `handle_websocket` (lib.rs lines 521-571): the client upgrade either
fails — producing the 500 text response — or succeeds, in which case the
upgrade response is returned to the client at once and the pump runs in a
spawned task whose outcome is reported in the second component. -/
def handle_websocket_model (upgradeResult : Option RespT) (dialOk : Bool) :
    RespT × Option (Except Str Unit) :=
  match upgradeResult with
  | some resp => (resp, some (pump_websocket_model dialOk))
  | none =>
    (text_response 500 "Failed to upgrade WebSocket connection".data, none)

/-- The 101 Switching Protocols response produced by a successful
`hyper_tungstenite::upgrade`. -/
def upgradeResp101 : RespT :=
  { status := 101
    version := 11
    headers := [("connection".data, "upgrade".data), ("upgrade".data, "websocket".data)]
    body := [] }

/-- C7 counterexample: when the client upgrade succeeds and the upstream
dial then fails, the client still receives the upgrade response — never the
claimed 500 — and the dial failure is only an error in the spawned task. -/
theorem websocket_dial_failure_counterexample :
    (handle_websocket_model (some upgradeResp101) false).1 = upgradeResp101 ∧
    (handle_websocket_model (some upgradeResp101) false).1 ≠
      text_response 500 "Failed to upgrade WebSocket connection".data ∧
    (handle_websocket_model (some upgradeResp101) false).2 =
      some (Except.error "websocket proxy error".data) := by
  refine ⟨rfl, by decide, rfl⟩

/-- C7 as amended: the 500 `Failed to upgrade WebSocket connection` response
is produced exactly when upgrading the client connection fails; once the
upgrade succeeds the upgrade response is returned regardless of the dial,
and a dial failure surfaces only as an error in the spawned pump task. -/
theorem websocket_failure_surface (u : RespT) (d : Bool) :
    (handle_websocket_model none d).1 =
      text_response 500 "Failed to upgrade WebSocket connection".data ∧
    (handle_websocket_model (some u) d).1 = u ∧
    (handle_websocket_model (some u) false).2 =
      some (Except.error "websocket proxy error".data) := by
  exact ⟨rfl, rfl, rfl⟩

/-! ## The response transform pipeline (lib.rs lines 433-519 and 706-832) -/

/-- The payload metadata names optionally stripped by `sanitize_headers`
(lib.rs lines 770-788). -/
def payloadHeaderNames : List Str :=
  ["content-length".data, "content-encoding".data, "transfer-encoding".data,
   "content-md5".data, "content-digest".data, "etag".data]

/-- The loop of `sanitize_headers`: copy entries in order into `acc`,
skipping payload metadata when stripping; `insert` keeps the last value of a
repeated name. -/
def sanitizeAux (strip : Bool) : HMap → HMap → HMap
  | acc, [] => acc
  | acc, p :: rest =>
    if strip = true ∧ p.1 ∈ payloadHeaderNames then sanitizeAux strip acc rest
    else sanitizeAux strip (hinsert acc p.1 p.2) rest

/-- `sanitize_headers` (lib.rs lines 770-788). -/
def sanitize_headers (h : HMap) (strip : Bool) : HMap := sanitizeAux strip [] h

/-- The four names removed by `strip_csp_headers` (lib.rs lines 790-795), in
removal order. -/
def cspHeaderNames : List Str :=
  ["content-security-policy".data, "content-security-policy-report-only".data,
   "x-frame-options".data, "frame-options".data]

/-- `strip_csp_headers` (lib.rs lines 790-795). -/
def strip_csp_headers (m : HMap) : HMap := hremoveAll m cspHeaderNames

/-- `CORS_HEADER_NAMES` (lib.rs lines 819-827). -/
def corsStripNames : List Str :=
  ["access-control-allow-origin".data, "access-control-allow-methods".data,
   "access-control-allow-headers".data, "access-control-expose-headers".data,
   "access-control-allow-credentials".data, "access-control-max-age".data,
   "access-control-allow-private-network".data]

/-- `strip_cors_headers` (lib.rs lines 818-832). -/
def strip_cors_headers (m : HMap) : HMap := hremoveAll m corsStripNames

/-- The header-copy loop that moves a rebuilt header map into the response
builder (lib.rs lines 514-517, 738-741, 762-765). -/
def copyAux : HMap → HMap → HMap
  | acc, [] => acc
  | acc, p :: rest => copyAux (hinsert acc p.1 p.2) rest

/-- Copy a header map into a fresh builder header map. -/
def copyHeaders (m : HMap) : HMap := copyAux [] m

/-- Plain list-prefix test. -/
def isPrefixStr : Str → Str → Bool
  | [], _ => true
  | _ :: _, [] => false
  | a :: as, b :: bs => decide (a = b) && isPrefixStr as bs

/-- Rust `str::contains` for a literal pattern. -/
def containsSub (needle : Str) : Str → Bool
  | [] => needle.isEmpty
  | c :: rest => isPrefixStr needle (c :: rest) || containsSub needle rest

/-- The `Content-Type` test of `transform_response` (lib.rs lines 711-716):
the header value, defaulting to the empty string, contains `text/html`. -/
def isHtmlResponse (r : RespT) : Bool :=
  match hget r.headers "content-type".data with
  | some v => containsSub "text/html".data v
  | none => false

/-- The CORS step shared by the transforms (lib.rs lines 724-727, 752-755,
496-500): strip when the behavior strips, else add when it adds. -/
def corsStep (b : ProxyBehavior) (nh : HMap) : HMap :=
  if b.strip_cors_headers = true then strip_cors_headers nh
  else if b.add_cors = true then add_cors_headers nh
  else nh

/-- Frame-ancestors injection (lib.rs lines 504-508, 729-733, 757-761):
overwrite `content-security-policy` when the behavior carries a valid
value. -/
def injectFrame (fa : Option Str) (nh : HMap) : HMap :=
  match fa with
  | some v =>
    if headerValueValid v = true then
      hinsert nh "content-security-policy".data v
    else nh
  | none => nh

/-- Content-length recomputation of `build_head_response` (lib.rs lines
509-513). -/
def insertContentLength (len : Option Nat) (nh : HMap) : HMap :=
  match len with
  | some l =>
    if headerValueValid (natToStr l) = true then
      hinsert nh "content-length".data (natToStr l)
    else nh
  | none => nh

/-- The common header rebuild of `transform_response`: strip CSP, then strip
or add CORS per behavior, then inject frame-ancestors when configured. -/
def applyBehaviorHeaders (b : ProxyBehavior) (nh : HMap) : HMap :=
  injectFrame b.frame_ancestors (corsStep b (strip_csp_headers nh))

/-- `transform_response` (lib.rs lines 706-768).  The `lol_html` rewriter is
passed in as `rewrite`; `none` models a rewriting error (the body-read
failure of the streaming body is not reachable here because bodies are
already materialised). -/
def transform_response (rewrite : Str → Option Str) (resp : RespT)
    (b : ProxyBehavior) : RespT :=
  if isHtmlResponse resp = true then
    match rewrite resp.body with
    | some newBody =>
      let nh := sanitize_headers resp.headers true
      let nh := applyBehaviorHeaders b nh
      let nh := hinsert nh "content-length".data (natToStr newBody.length)
      { status := resp.status, version := resp.version,
        headers := copyHeaders nh, body := newBody }
    | none => text_response 500 "HTML rewrite failed".data
  else
    let nh := sanitize_headers resp.headers false
    let nh := applyBehaviorHeaders b nh
    { status := resp.status, version := resp.version,
      headers := copyHeaders nh, body := resp.body }

/-- `build_head_response` (lib.rs lines 481-519). -/
def build_head_response (status version : Nat) (headers : HMap)
    (b : ProxyBehavior) (bodyLen : Option Nat) (forceCors : Bool) : RespT :=
  let nh := sanitize_headers headers false
  let nh := hremove nh "content-length".data
  let nh := hremove nh "transfer-encoding".data
  let nh := strip_csp_headers nh
  let nh := corsStep b nh
  let nh :=
    if forceCors = true ∧ b.strip_cors_headers = false then add_cors_headers nh
    else nh
  let nh := injectFrame b.frame_ancestors nh
  let nh := insertContentLength bodyLen nh
  { status := status, version := version, headers := copyHeaders nh, body := [] }

/-- `transform_head_response_from_get` (lib.rs lines 457-479): run the GET
response through the normal transform, drain the transformed body, and build
the HEAD-shaped response with the drained length. -/
def transform_head_response_from_get (rewrite : Str → Option Str)
    (resp : RespT) (b : ProxyBehavior) : RespT :=
  let t := transform_response rewrite resp b
  build_head_response t.status t.version t.headers b (some t.body.length) true

/-- The GET re-issue assembled by `handle_head_method_not_allowed` (lib.rs
lines 438-446): same URI, headers and version, method GET, empty body,
`Content-Length` removed. -/
def build_get_fallback_request (headers : HMap) (path : Str) (version : Nat) : ReqT :=
  { method := MethodT.GET
    path := path
    version := version
    headers := hremove headers "content-length".data
    body := [] }

/-- What the forwarder returns: delegation to the WebSocket bridge, or a
response. -/
inductive ForwardResult where
  | websocketDelegate
  | response (r : RespT)
  deriving DecidableEq

/-- `forward_request` (lib.rs lines 329-423), with the upstream client and
the HTML rewriter passed in as functions; `isUpgrade` is the
`is_upgrade_request` test and URI construction is elided (the `authority`
string stands for the resolved target authority). -/
def forward_request_model (upstream : ReqT → Option RespT)
    (rewrite : Str → Option Str) (isUpgrade : Bool) (req : ReqT)
    (authority : Str) (b : ProxyBehavior) : ForwardResult :=
  if isUpgrade = true then ForwardResult.websocketDelegate
  else
    let req1 : ReqT := { req with headers := outboundHeaders b authority req.headers }
    match upstream req1 with
    | none => ForwardResult.response (text_response 502 "Upstream fetch failed".data)
    | some resp =>
      if req.method = MethodT.HEAD ∧ (resp.status = 405 ∨ resp.status = 501) then
        match upstream (build_get_fallback_request req1.headers req1.path req1.version) with
        | some getResp =>
          ForwardResult.response (transform_head_response_from_get rewrite getResp b)
        | none => ForwardResult.response (transform_response rewrite resp b)
      else ForwardResult.response (transform_response rewrite resp b)

/-! ## Uniqueness and lookup lemmas for the pipeline -/

/-- Whether a name is present in a header map. -/
def hasKey (m : HMap) (k : Str) : Bool := (hget m k).isSome

/-- Every name occurs at most once: the `HeaderMap` shape all pipeline
outputs have. -/
def keysUnique : HMap → Bool
  | [] => true
  | p :: rest => !hasKey rest p.1 && keysUnique rest

theorem hget_none_of_hasKey_false (m : HMap) (k : Str) (h : hasKey m k = false) :
    hget m k = none := by
  unfold hasKey at h
  cases hm : hget m k with
  | none => rfl
  | some v => rw [hm] at h; simp at h

theorem hasKey_hremove_self (m : HMap) (k : Str) : hasKey (hremove m k) k = false := by
  unfold hasKey
  rw [hget_hremove_self]
  rfl

theorem hasKey_hremove_ne (m : HMap) (n k : Str) (h : n ≠ k) :
    hasKey (hremove m k) n = hasKey m n := by
  unfold hasKey
  rw [hget_hremove_ne m n k h]

theorem keysUnique_cons_iff (p : Str × Str) (rest : HMap) :
    keysUnique (p :: rest) = true ↔
      hasKey rest p.1 = false ∧ keysUnique rest = true := by
  simp [keysUnique]

theorem keysUnique_hremove (m : HMap) (k : Str) (h : keysUnique m = true) :
    keysUnique (hremove m k) = true := by
  induction m with
  | nil => rfl
  | cons p rest ih =>
    rcases (keysUnique_cons_iff p rest).1 h with ⟨h1, h2⟩
    by_cases hp : p.1 = k
    · simpa [hremove, hp] using ih h2
    · rw [show hremove (p :: rest) k = p :: hremove rest k from by simp [hremove, hp]]
      exact (keysUnique_cons_iff _ _).2
        ⟨by rw [hasKey_hremove_ne rest p.1 k hp]; exact h1, ih h2⟩

theorem keysUnique_append_single (m : HMap) (k v : Str)
    (hu : keysUnique m = true) (hk : hasKey m k = false) :
    keysUnique (m ++ [(k, v)]) = true := by
  induction m with
  | nil => simp [keysUnique, hasKey, hget]
  | cons q rest ih =>
    rcases (keysUnique_cons_iff q rest).1 hu with ⟨h1, h2⟩
    have hqk : ¬ q.1 = k := by
      intro e
      unfold hasKey at hk
      rw [show hget (q :: rest) k = some q.2 from by simp [hget, e]] at hk
      simp at hk
    have hrk : hasKey rest k = false := by
      unfold hasKey at hk ⊢
      rw [show hget (q :: rest) k = hget rest k from by simp [hget, hqk]] at hk
      exact hk
    rw [List.cons_append]
    refine (keysUnique_cons_iff _ _).2 ⟨?_, ih h2 hrk⟩
    unfold hasKey
    rw [hget_append]
    rw [hget_none_of_hasKey_false rest q.1 h1]
    have hkq : ¬ k = q.1 := fun e => hqk e.symm
    have : hget [(k, v)] q.1 = none := by
      simp [hget, hkq]
    rw [this]
    rfl

theorem keysUnique_hinsert (m : HMap) (k v : Str) (h : keysUnique m = true) :
    keysUnique (hinsert m k v) = true :=
  keysUnique_append_single (hremove m k) k v (keysUnique_hremove m k h)
    (hasKey_hremove_self m k)

theorem keysUnique_hremoveAll (names : List Str) (m : HMap)
    (h : keysUnique m = true) : keysUnique (hremoveAll m names) = true := by
  induction names generalizing m with
  | nil => exact h
  | cons k rest ih => exact ih (hremove m k) (keysUnique_hremove m k h)

theorem keysUnique_hinsertAll (ps : HMap) (m : HMap)
    (h : keysUnique m = true) : keysUnique (hinsertAll m ps) = true := by
  induction ps generalizing m with
  | nil => exact h
  | cons q rest ih => exact ih (hinsert m q.1 q.2) (keysUnique_hinsert m q.1 q.2 h)

theorem keysUnique_sanitizeAux (strip : Bool) (l acc : HMap)
    (h : keysUnique acc = true) : keysUnique (sanitizeAux strip acc l) = true := by
  induction l generalizing acc with
  | nil => exact h
  | cons p rest ih =>
    unfold sanitizeAux
    split
    · exact ih acc h
    · exact ih (hinsert acc p.1 p.2) (keysUnique_hinsert acc p.1 p.2 h)

theorem keysUnique_sanitize (h : HMap) (strip : Bool) :
    keysUnique (sanitize_headers h strip) = true :=
  keysUnique_sanitizeAux strip h [] rfl

theorem copyAux_eq_sanitizeAux (l acc : HMap) :
    copyAux acc l = sanitizeAux false acc l := by
  induction l generalizing acc with
  | nil => rfl
  | cons p rest ih =>
    unfold copyAux sanitizeAux
    rw [if_neg (fun h => by simp at h)]
    exact ih (hinsert acc p.1 p.2)

theorem keysUnique_copyHeaders (m : HMap) : keysUnique (copyHeaders m) = true := by
  unfold copyHeaders
  rw [copyAux_eq_sanitizeAux]
  exact keysUnique_sanitizeAux false m [] rfl

theorem countName_eq_zero_of_hasKey_false (m : HMap) (n : Str)
    (h : hasKey m n = false) : countName m n = 0 := by
  induction m with
  | nil => rfl
  | cons p rest ih =>
    unfold hasKey at h
    by_cases hp : p.1 = n
    · rw [show hget (p :: rest) n = some p.2 from by simp [hget, hp]] at h
      simp at h
    · rw [show hget (p :: rest) n = hget rest n from by simp [hget, hp]] at h
      simp only [countName, if_neg hp]
      rw [ih h]

theorem countName_le_one_of_unique (m : HMap) (n : Str)
    (h : keysUnique m = true) : countName m n ≤ 1 := by
  induction m with
  | nil => exact Nat.zero_le 1
  | cons p rest ih =>
    rcases (keysUnique_cons_iff p rest).1 h with ⟨h1, h2⟩
    by_cases hp : p.1 = n
    · have : countName rest n = 0 :=
        countName_eq_zero_of_hasKey_false rest n (hp ▸ h1)
      simp [countName, hp, this]
    · simpa [countName, hp] using ih h2

theorem countName_pos_of_hget (m : HMap) (n v : Str) (h : hget m n = some v) :
    1 ≤ countName m n := by
  induction m with
  | nil => simp [hget] at h
  | cons p rest ih =>
    by_cases hp : p.1 = n
    · simp [countName, hp]
    · rw [show hget (p :: rest) n = hget rest n from by simp [hget, hp]] at h
      simpa [countName, hp] using ih h

theorem hget_reverse_of_unique (m : HMap) (n : Str) (h : keysUnique m = true) :
    hget m.reverse n = hget m n := by
  induction m with
  | nil => rfl
  | cons p rest ih =>
    rcases (keysUnique_cons_iff p rest).1 h with ⟨h1, h2⟩
    rw [List.reverse_cons, hget_append, ih h2]
    by_cases hp : p.1 = n
    · rw [hget_none_of_hasKey_false rest n (hp ▸ h1)]
      simp [firstSome, hget, hp]
    · rw [show hget [p] n = none from by simp [hget, hp]]
      rw [firstSome_none]
      simp [hget, hp]

theorem hasKey_of_mem (m : HMap) (p : Str × Str) (h : p ∈ m) :
    hasKey m p.1 = true := by
  induction m with
  | nil => simp at h
  | cons q rest ih =>
    unfold hasKey
    rcases List.mem_cons.1 h with he | hm
    · rw [show hget (q :: rest) p.1 = some q.2 from by simp [hget, he]]
      rfl
    · by_cases hq : q.1 = p.1
      · simp [hget, hq]
      · rw [show hget (q :: rest) p.1 = hget rest p.1 from by simp [hget, hq]]
        exact ih hm

theorem mem_iff_hget (m : HMap) (p : Str × Str) (h : keysUnique m = true) :
    p ∈ m ↔ hget m p.1 = some p.2 := by
  induction m with
  | nil => simp [hget]
  | cons q rest ih =>
    rcases (keysUnique_cons_iff q rest).1 h with ⟨h1, h2⟩
    by_cases hq : q.1 = p.1
    · rw [show hget (q :: rest) p.1 = some q.2 from by simp [hget, hq]]
      simp only [List.mem_cons, Option.some_inj]
      constructor
      · intro hc
        rcases hc with he | hm
        · rw [he]
        · have hKey := hasKey_of_mem rest p hm
          rw [hq] at h1
          rw [hKey] at h1
          simp at h1
      · intro he
        left
        cases p with
        | mk a bv => cases q with
          | mk c dv =>
            simp only at hq he
            simp [hq, he]
    · rw [show hget (q :: rest) p.1 = hget rest p.1 from by simp [hget, hq]]
      rw [List.mem_cons, ih h2]
      constructor
      · intro hc
        rcases hc with he | hm
        · exact absurd (by rw [he]) hq
        · exact hm
      · intro hm
        right
        exact hm

/-! ## Lookup characterizations of the pipeline steps -/

theorem hget_hremoveAll (names : List Str) (m : HMap) (n : Str) :
    hget (hremoveAll m names) n = if n ∈ names then none else hget m n := by
  induction names generalizing m with
  | nil => simp [hremoveAll]
  | cons k rest ih =>
    rw [show hremoveAll m (k :: rest) = hremoveAll (hremove m k) rest from rfl, ih]
    by_cases hr : n ∈ rest
    · simp [hr]
    · by_cases hk : n = k
      · simp [hr, hk, hget_hremove_self]
      · rw [if_neg hr, hget_hremove_ne m n k hk]
        simp [hk, hr]

theorem hget_hinsertAll (ps m : HMap) (n : Str) :
    hget (hinsertAll m ps) n = firstSome (hget ps.reverse n) (hget m n) := by
  induction ps generalizing m with
  | nil => rfl
  | cons q rest ih =>
    rw [show hinsertAll m (q :: rest) = hinsertAll (hinsert m q.1 q.2) rest from rfl, ih]
    rw [List.reverse_cons, hget_append]
    cases hr : hget rest.reverse n with
    | some v => rfl
    | none =>
      simp only [firstSome]
      by_cases hq : q.1 = n
      · rw [hq, hget_hinsert_self]
        simp [hget, hq]
      · rw [hget_hinsert_ne m q.1 q.2 n (fun e => hq e.symm)]
        simp [hget, hq, firstSome]

theorem hget_sanitizeAux (strip : Bool) (l acc : HMap) (n : Str) :
    hget (sanitizeAux strip acc l) n =
      if strip = true ∧ n ∈ payloadHeaderNames then hget acc n
      else firstSome (hget l.reverse n) (hget acc n) := by
  induction l generalizing acc with
  | nil =>
    simp only [sanitizeAux, List.reverse_nil]
    split <;> rfl
  | cons p rest ih =>
    rw [List.reverse_cons, hget_append]
    unfold sanitizeAux
    by_cases hskip : strip = true ∧ p.1 ∈ payloadHeaderNames
    · rw [if_pos hskip, ih acc]
      by_cases hn : strip = true ∧ n ∈ payloadHeaderNames
      · rw [if_pos hn, if_pos hn]
      · rw [if_neg hn, if_neg hn]
        have hpn : ¬ p.1 = n := by
          intro e
          exact hn ⟨hskip.1, e ▸ hskip.2⟩
        rw [show hget [p] n = none from by simp [hget, hpn]]
        rw [firstSome_none]
    · rw [if_neg hskip, ih (hinsert acc p.1 p.2)]
      by_cases hn : strip = true ∧ n ∈ payloadHeaderNames
      · rw [if_pos hn, if_pos hn]
        have hpn : ¬ p.1 = n := by
          intro e
          exact hskip ⟨hn.1, e ▸ hn.2⟩
        rw [hget_hinsert_ne acc p.1 p.2 n (fun e => hpn e.symm)]
      · rw [if_neg hn, if_neg hn]
        cases hr : hget rest.reverse n with
        | some v => rfl
        | none =>
          simp only [firstSome]
          by_cases hpn : p.1 = n
          · rw [hpn, hget_hinsert_self]
            simp [hget, hpn]
          · rw [hget_hinsert_ne acc p.1 p.2 n (fun e => hpn e.symm)]
            simp [hget, hpn, firstSome]

theorem hget_sanitize_true (h : HMap) (n : Str) :
    hget (sanitize_headers h true) n =
      if n ∈ payloadHeaderNames then none else hget h.reverse n := by
  unfold sanitize_headers
  rw [hget_sanitizeAux]
  by_cases hn : n ∈ payloadHeaderNames
  · simp [hn, hget]
  · simp [hn, hget, firstSome_none]

theorem hget_sanitize_false (h : HMap) (n : Str) :
    hget (sanitize_headers h false) n = hget h.reverse n := by
  unfold sanitize_headers
  rw [hget_sanitizeAux]
  rw [if_neg (fun hc => by simp at hc)]
  rw [show hget ([] : HMap) n = none from rfl, firstSome_none]

theorem hget_copyHeaders (m : HMap) (n : Str) :
    hget (copyHeaders m) n = hget m.reverse n := by
  unfold copyHeaders
  rw [copyAux_eq_sanitizeAux]
  exact hget_sanitize_false m n

/-- Lookup after copying a uniquely-keyed map is lookup in the map itself. -/
theorem hget_copyHeaders_of_unique (m : HMap) (n : Str)
    (h : keysUnique m = true) : hget (copyHeaders m) n = hget m n := by
  rw [hget_copyHeaders, hget_reverse_of_unique m n h]

/-! ## Step lemmas for the behavior-driven header rebuild -/

theorem hget_none_of_keys_subset (m : HMap) (names : List Str) (n : Str)
    (hsub : ∀ q ∈ m, q.1 ∈ names) (hn : ¬ n ∈ names) : hget m n = none := by
  induction m with
  | nil => rfl
  | cons q rest ih =>
    have hq : ¬ q.1 = n := fun e => hn (e ▸ hsub q (List.mem_cons_self q rest))
    rw [show hget (q :: rest) n = hget rest n from by simp [hget, hq]]
    exact ih (fun p hp => hsub p (List.mem_cons_of_mem q hp))

theorem corsPairs_keys_subset : ∀ q ∈ corsPairs, q.1 ∈ corsStripNames := by
  decide

theorem hget_add_cors_not_cors (nh : HMap) (n : Str) (hn : ¬ n ∈ corsStripNames) :
    hget (add_cors_headers nh) n = hget nh n := by
  unfold add_cors_headers
  rw [hget_hinsertAll]
  rw [hget_none_of_keys_subset corsPairs.reverse corsStripNames n
    (fun q hq => corsPairs_keys_subset q (List.mem_reverse.1 hq)) hn]
  rfl

theorem hget_corsStep_not_cors (b : ProxyBehavior) (nh : HMap) (n : Str)
    (hn : ¬ n ∈ corsStripNames) : hget (corsStep b nh) n = hget nh n := by
  unfold corsStep
  split
  · unfold strip_cors_headers
    rw [hget_hremoveAll, if_neg hn]
  · split
    · exact hget_add_cors_not_cors nh n hn
    · rfl

theorem hget_injectFrame_ne (fa : Option Str) (nh : HMap) (n : Str)
    (hn : n ≠ "content-security-policy".data) :
    hget (injectFrame fa nh) n = hget nh n := by
  cases fa with
  | none => rfl
  | some v =>
    show hget (if headerValueValid v = true then
      hinsert nh "content-security-policy".data v else nh) n = hget nh n
    by_cases hv : headerValueValid v = true
    · rw [if_pos hv]
      exact hget_hinsert_ne nh _ v n hn
    · rw [if_neg hv]

theorem hget_insertContentLength_ne (len : Option Nat) (nh : HMap) (n : Str)
    (hn : n ≠ "content-length".data) :
    hget (insertContentLength len nh) n = hget nh n := by
  cases len with
  | none => rfl
  | some l =>
    show hget (if headerValueValid (natToStr l) = true then
      hinsert nh "content-length".data (natToStr l) else nh) n = hget nh n
    by_cases hv : headerValueValid (natToStr l) = true
    · rw [if_pos hv]
      exact hget_hinsert_ne nh _ _ n hn
    · rw [if_neg hv]

theorem keysUnique_corsStep (b : ProxyBehavior) (nh : HMap)
    (h : keysUnique nh = true) : keysUnique (corsStep b nh) = true := by
  unfold corsStep
  split
  · exact keysUnique_hremoveAll corsStripNames nh h
  · split
    · exact keysUnique_hinsertAll corsPairs nh h
    · exact h

theorem keysUnique_injectFrame (fa : Option Str) (nh : HMap)
    (h : keysUnique nh = true) : keysUnique (injectFrame fa nh) = true := by
  cases fa with
  | none => exact h
  | some v =>
    show keysUnique (if headerValueValid v = true then
      hinsert nh "content-security-policy".data v else nh) = true
    by_cases hv : headerValueValid v = true
    · rw [if_pos hv]
      exact keysUnique_hinsert nh _ v h
    · rw [if_neg hv]
      exact h

theorem keysUnique_insertContentLength (len : Option Nat) (nh : HMap)
    (h : keysUnique nh = true) : keysUnique (insertContentLength len nh) = true := by
  cases len with
  | none => exact h
  | some l =>
    show keysUnique (if headerValueValid (natToStr l) = true then
      hinsert nh "content-length".data (natToStr l) else nh) = true
    by_cases hv : headerValueValid (natToStr l) = true
    · rw [if_pos hv]
      exact keysUnique_hinsert nh _ _ h
    · rw [if_neg hv]
      exact h

theorem keysUnique_strip_csp (nh : HMap) (h : keysUnique nh = true) :
    keysUnique (strip_csp_headers nh) = true :=
  keysUnique_hremoveAll cspHeaderNames nh h

theorem keysUnique_applyBehaviorHeaders (b : ProxyBehavior) (nh : HMap)
    (h : keysUnique nh = true) : keysUnique (applyBehaviorHeaders b nh) = true :=
  keysUnique_injectFrame _ _ (keysUnique_corsStep b _ (keysUnique_strip_csp nh h))

/-- Every header map emitted by `transform_response` has unique names. -/
theorem keysUnique_transform (rewrite : Str → Option Str) (resp : RespT)
    (b : ProxyBehavior) : keysUnique (transform_response rewrite resp b).headers = true := by
  unfold transform_response
  split
  · cases hrw : rewrite resp.body with
    | some nb => exact keysUnique_copyHeaders _
    | none => rfl
  · exact keysUnique_copyHeaders _

/-! ## Claim C10: emitted headers are duplicate-free, last value wins -/

/-- C10.  Every response emitted by `transform_response` carries each header
name at most once, and `sanitize_headers` (which feeds the header-copy loop)
resolves a repeated upstream name to its last value — lookup in the
sanitized map equals first lookup in the reversed input. -/
theorem forwarded_response_header_dedup :
    (∀ (rewrite : Str → Option Str) (resp : RespT) (b : ProxyBehavior) (n : Str),
      countName (transform_response rewrite resp b).headers n ≤ 1)
    ∧ (∀ (h : HMap) (n : Str),
      hget (sanitize_headers h false) n = hget h.reverse n) := by
  constructor
  · intro rewrite resp b n
    exact countName_le_one_of_unique _ n (keysUnique_transform rewrite resp b)
  · exact hget_sanitize_false

/-! ## Claim C8: the VSCode CSP is the only one on the response -/

theorem injectFrame_some (v : Str) (nh : HMap) :
    injectFrame (some v) nh =
      if headerValueValid v = true then
        hinsert nh "content-security-policy".data v
      else nh := rfl

theorem insertContentLength_some (l : Nat) (nh : HMap) :
    insertContentLength (some l) nh =
      if headerValueValid (natToStr l) = true then
        hinsert nh "content-length".data (natToStr l)
      else nh := rfl

theorem hget_applyBehavior_frame (b : ProxyBehavior) (nh : HMap) (fa : Str)
    (hfa : b.frame_ancestors = some fa) (hv : headerValueValid fa = true) :
    hget (applyBehaviorHeaders b nh) "content-security-policy".data = some fa := by
  unfold applyBehaviorHeaders
  rw [hfa, injectFrame_some, if_pos hv, hget_hinsert_self]

theorem hget_applyBehavior_reportOnly (b : ProxyBehavior) (nh : HMap) :
    hget (applyBehaviorHeaders b nh)
      "content-security-policy-report-only".data = none := by
  unfold applyBehaviorHeaders
  rw [hget_injectFrame_ne _ _ _ (by decide),
    hget_corsStep_not_cors _ _ _ (by decide)]
  unfold strip_csp_headers
  rw [hget_hremoveAll,
    if_pos (by decide :
      "content-security-policy-report-only".data ∈ cspHeaderNames)]

/-- The inner header map of a successful transform has unique keys. -/
theorem keysUnique_transform_inner_html (resp : RespT) (b : ProxyBehavior)
    (nb : Str) :
    keysUnique (hinsert (applyBehaviorHeaders b (sanitize_headers resp.headers true))
      "content-length".data (natToStr nb.length)) = true :=
  keysUnique_hinsert _ _ _
    (keysUnique_applyBehaviorHeaders b _ (keysUnique_sanitize resp.headers true))

/-- Lookup of the frame-ancestors CSP in the transform output, for any
behavior carrying a valid frame-ancestors value. -/
theorem hget_transform_frame (rewrite : Str → Option Str) (resp : RespT)
    (b : ProxyBehavior) (fa : Str)
    (hfa : b.frame_ancestors = some fa) (hv : headerValueValid fa = true)
    (hok : isHtmlResponse resp = true → (rewrite resp.body).isSome = true) :
    hget (transform_response rewrite resp b).headers
        "content-security-policy".data = some fa
    ∧ hget (transform_response rewrite resp b).headers
        "content-security-policy-report-only".data = none := by
  unfold transform_response
  split
  next hhtml =>
    cases hrw : rewrite resp.body with
    | none =>
      have hs := hok hhtml
      rw [hrw] at hs
      simp at hs
    | some nb =>
      constructor
      · rw [hget_copyHeaders_of_unique _ _ (keysUnique_transform_inner_html resp b nb),
          hget_hinsert_ne _ _ _ _ (by decide),
          hget_applyBehavior_frame b _ fa hfa hv]
      · rw [hget_copyHeaders_of_unique _ _ (keysUnique_transform_inner_html resp b nb),
          hget_hinsert_ne _ _ _ _ (by decide),
          hget_applyBehavior_reportOnly b _]
  next hhtml =>
    constructor
    · rw [hget_copyHeaders_of_unique _ _
        (keysUnique_applyBehaviorHeaders b _ (keysUnique_sanitize resp.headers false)),
        hget_applyBehavior_frame b _ fa hfa hv]
    · rw [hget_copyHeaders_of_unique _ _
        (keysUnique_applyBehaviorHeaders b _ (keysUnique_sanitize resp.headers false)),
        hget_applyBehavior_reportOnly b _]

/-- C8.  For the VSCode Port behavior (skip_service_worker set, hence port
39378), every transformed upstream response — and every HEAD-shaped response
built by `build_head_response` — carries `content-security-policy` exactly
once, with exactly the frame-ancestors constant, and carries no
report-only CSP: the injection runs after the strip step. -/
theorem vscode_port_csp (rewrite : Str → Option Str) (resp : RespT)
    (r : PortRouteT) (hsw : r.skip_service_worker = true)
    (hok : isHtmlResponse resp = true → (rewrite resp.body).isSome = true) :
    hget (transform_response rewrite resp (portBehavior r)).headers
        "content-security-policy".data = some CSP_FRAME_ANCESTORS_PORT_39378
    ∧ countName (transform_response rewrite resp (portBehavior r)).headers
        "content-security-policy".data = 1
    ∧ hget (transform_response rewrite resp (portBehavior r)).headers
        "content-security-policy-report-only".data = none
    ∧ (∀ (status version : Nat) (hdrs : HMap) (bodyLen : Option Nat)
        (forceCors : Bool),
        hget (build_head_response status version hdrs (portBehavior r)
            bodyLen forceCors).headers
          "content-security-policy".data = some CSP_FRAME_ANCESTORS_PORT_39378) := by
  have hfa : (portBehavior r).frame_ancestors =
      some CSP_FRAME_ANCESTORS_PORT_39378 := by
    simp [portBehavior, hsw]
  have hv : headerValueValid CSP_FRAME_ANCESTORS_PORT_39378 = true := by decide
  have hmain := hget_transform_frame rewrite resp (portBehavior r)
    CSP_FRAME_ANCESTORS_PORT_39378 hfa hv hok
  refine ⟨hmain.1, ?_, hmain.2, ?_⟩
  · have hle := countName_le_one_of_unique
      (transform_response rewrite resp (portBehavior r)).headers
      "content-security-policy".data
      (keysUnique_transform rewrite resp (portBehavior r))
    have hge := countName_pos_of_hget _ _ _ hmain.1
    omega
  · intro status version hdrs bodyLen forceCors
    unfold build_head_response
    have hu : keysUnique (insertContentLength bodyLen
        (injectFrame (portBehavior r).frame_ancestors
          (if forceCors = true ∧ (portBehavior r).strip_cors_headers = false then
            add_cors_headers (corsStep (portBehavior r)
              (strip_csp_headers
                (hremove (hremove (sanitize_headers hdrs false)
                  "content-length".data) "transfer-encoding".data)))
          else
            corsStep (portBehavior r)
              (strip_csp_headers
                (hremove (hremove (sanitize_headers hdrs false)
                  "content-length".data) "transfer-encoding".data))))) = true := by
      refine keysUnique_insertContentLength _ _ (keysUnique_injectFrame _ _ ?_)
      split
      · exact keysUnique_hinsertAll corsPairs _
          (keysUnique_corsStep _ _ (keysUnique_strip_csp _
            (keysUnique_hremove _ _ (keysUnique_hremove _ _
              (keysUnique_sanitize hdrs false)))))
      · exact keysUnique_corsStep _ _ (keysUnique_strip_csp _
          (keysUnique_hremove _ _ (keysUnique_hremove _ _
            (keysUnique_sanitize hdrs false))))
    rw [hget_copyHeaders_of_unique _ _ hu,
      hget_insertContentLength_ne _ _ _ (by decide),
      hfa, injectFrame_some, if_pos hv, hget_hinsert_self]

/-- Witness for C8 on a concrete non-HTML upstream response carrying a
stale CSP and a report-only CSP. -/
theorem vscode_port_csp_witness :
    hget (transform_response (fun _ => none)
        { status := 200
          version := 11
          headers := [("content-type".data, "text/css".data),
                      ("content-security-policy".data, "default-src *".data),
                      ("content-security-policy-report-only".data, "x".data)]
          body := "b".data }
        (portBehavior { port := 39378, morph_id := "abc".data,
                        skip_service_worker := true })).headers
      "content-security-policy".data = some CSP_FRAME_ANCESTORS_PORT_39378 := by
  have h := vscode_port_csp (fun _ => none)
    { status := 200
      version := 11
      headers := [("content-type".data, "text/css".data),
                  ("content-security-policy".data, "default-src *".data),
                  ("content-security-policy-report-only".data, "x".data)]
      body := "b".data }
    { port := 39378, morph_id := "abc".data, skip_service_worker := true }
    (by decide) (by intro hc; rw [show isHtmlResponse _ = false from by decide] at hc; exact absurd hc (by decide))
  exact h.1

/-! ## Claim C9: idempotence of sanitize + strip_csp + add_cors -/

/-- The header scrub of the HTML branch with CORS addition: sanitize with
payload stripping, strip CSP, add CORS (lib.rs lines 721-727). -/
def scrub (h : HMap) : HMap :=
  add_cors_headers (strip_csp_headers (sanitize_headers h true))

theorem keysUnique_scrub (h : HMap) : keysUnique (scrub h) = true := by
  unfold scrub add_cors_headers strip_csp_headers
  exact keysUnique_hinsertAll corsPairs _
    (keysUnique_hremoveAll cspHeaderNames _ (keysUnique_sanitize h true))

theorem hget_scrub (h : HMap) (n : Str) :
    hget (scrub h) n =
      firstSome (hget corsPairs.reverse n)
        (if n ∈ cspHeaderNames then none
         else if n ∈ payloadHeaderNames then none
         else hget h.reverse n) := by
  unfold scrub add_cors_headers
  rw [hget_hinsertAll]
  congr 1
  unfold strip_csp_headers
  rw [hget_hremoveAll]
  by_cases hc : n ∈ cspHeaderNames
  · simp [hc]
  · rw [if_neg hc, if_neg hc, hget_sanitize_true]

theorem hget_scrub_scrub (h : HMap) (n : Str) :
    hget (scrub (scrub h)) n = hget (scrub h) n := by
  rw [hget_scrub (scrub h) n, hget_reverse_of_unique _ n (keysUnique_scrub h),
    hget_scrub h n]
  cases hcp : hget corsPairs.reverse n with
  | some v => rfl
  | none =>
    by_cases hc : n ∈ cspHeaderNames
    · simp [firstSome, hc]
    · by_cases hp : n ∈ payloadHeaderNames
      · simp [firstSome, hc, hp]
      · simp [firstSome, hc, hp]

/-- C9.  The composition sanitize (with payload stripping) + strip_csp +
add_cors is idempotent: applying it twice yields the same header set —
the same name-value pairs — as applying it once. -/
theorem sanitize_pipeline_idempotent (h : HMap) (p : Str × Str) :
    p ∈ scrub (scrub h) ↔ p ∈ scrub h := by
  rw [mem_iff_hget _ p (keysUnique_scrub (scrub h)),
    mem_iff_hget _ p (keysUnique_scrub h), hget_scrub_scrub h p.1]

/-! ## Claim C4: the HEAD 405/501 fallback emission -/

/-- The header map assembled inside `build_head_response`, before the copy
loop. -/
def buildHeadInner (hdrs : HMap) (b : ProxyBehavior) (bodyLen : Option Nat)
    (forceCors : Bool) : HMap :=
  insertContentLength bodyLen
    (injectFrame b.frame_ancestors
      (if forceCors = true ∧ b.strip_cors_headers = false then
        add_cors_headers (corsStep b (strip_csp_headers
          (hremove (hremove (sanitize_headers hdrs false)
            "content-length".data) "transfer-encoding".data)))
      else
        corsStep b (strip_csp_headers
          (hremove (hremove (sanitize_headers hdrs false)
            "content-length".data) "transfer-encoding".data))))

theorem build_head_response_eq (status version : Nat) (hdrs : HMap)
    (b : ProxyBehavior) (bodyLen : Option Nat) (forceCors : Bool) :
    build_head_response status version hdrs b bodyLen forceCors =
      { status := status, version := version,
        headers := copyHeaders (buildHeadInner hdrs b bodyLen forceCors),
        body := [] } := rfl

theorem keysUnique_buildHeadInner (hdrs : HMap) (b : ProxyBehavior)
    (bodyLen : Option Nat) (forceCors : Bool) :
    keysUnique (buildHeadInner hdrs b bodyLen forceCors) = true := by
  unfold buildHeadInner
  refine keysUnique_insertContentLength _ _ (keysUnique_injectFrame _ _ ?_)
  split
  · exact keysUnique_hinsertAll corsPairs _
      (keysUnique_corsStep _ _ (keysUnique_strip_csp _
        (keysUnique_hremove _ _ (keysUnique_hremove _ _
          (keysUnique_sanitize hdrs false)))))
  · exact keysUnique_corsStep _ _ (keysUnique_strip_csp _
      (keysUnique_hremove _ _ (keysUnique_hremove _ _
        (keysUnique_sanitize hdrs false))))

/-- Passthrough in `build_head_response` for every name it does not manage:
such a name keeps the value it has in the (reversed) input headers. -/
theorem hget_buildHeadInner_passthrough (hdrs : HMap) (b : ProxyBehavior)
    (bodyLen : Option Nat) (forceCors : Bool) (n : Str)
    (hcsp : ¬ n ∈ cspHeaderNames) (hcors : ¬ n ∈ corsStripNames)
    (hcl : n ≠ "content-length".data) (hte : n ≠ "transfer-encoding".data) :
    hget (buildHeadInner hdrs b bodyLen forceCors) n = hget hdrs.reverse n := by
  unfold buildHeadInner
  have hfr : n ≠ "content-security-policy".data := by
    intro e
    exact hcsp (e ▸ (by decide :
      ("content-security-policy".data : Str) ∈ cspHeaderNames))
  rw [hget_insertContentLength_ne _ _ _ hcl, hget_injectFrame_ne _ _ _ hfr]
  have hbase :
      hget (corsStep b (strip_csp_headers
        (hremove (hremove (sanitize_headers hdrs false)
          "content-length".data) "transfer-encoding".data))) n =
        hget hdrs.reverse n := by
    rw [hget_corsStep_not_cors _ _ _ hcors]
    unfold strip_csp_headers
    rw [hget_hremoveAll, if_neg hcsp, hget_hremove_ne _ _ _ hte,
      hget_hremove_ne _ _ _ hcl, hget_sanitize_false]
  split
  · rw [hget_add_cors_not_cors _ _ hcors, hbase]
  · exact hbase

theorem hget_buildHeadInner_contentLength (hdrs : HMap) (b : ProxyBehavior)
    (len : Nat) (forceCors : Bool) :
    hget (buildHeadInner hdrs b (some len) forceCors) "content-length".data =
      some (natToStr len) := by
  unfold buildHeadInner
  rw [insertContentLength_some, if_pos (natToStr_valid len), hget_hinsert_self]

theorem hget_buildHeadInner_transferEncoding (hdrs : HMap) (b : ProxyBehavior)
    (bodyLen : Option Nat) (forceCors : Bool) :
    hget (buildHeadInner hdrs b bodyLen forceCors) "transfer-encoding".data = none := by
  unfold buildHeadInner
  rw [hget_insertContentLength_ne _ _ _ (by decide),
    hget_injectFrame_ne _ _ _ (by decide)]
  have hbase :
      hget (corsStep b (strip_csp_headers
        (hremove (hremove (sanitize_headers hdrs false)
          "content-length".data) "transfer-encoding".data)))
        "transfer-encoding".data = none := by
    rw [hget_corsStep_not_cors _ _ _ (by decide)]
    unfold strip_csp_headers
    rw [hget_hremoveAll, if_neg (by decide), hget_hremove_self]
  split
  · rw [hget_add_cors_not_cors _ _ (by decide), hbase]
  · exact hbase

/-- `transform_head_response_from_get`, unfolded to its record form. -/
theorem transform_head_eq (rewrite : Str → Option Str) (getResp : RespT)
    (b : ProxyBehavior) :
    transform_head_response_from_get rewrite getResp b =
      { status := (transform_response rewrite getResp b).status
        version := (transform_response rewrite getResp b).version
        headers := copyHeaders (buildHeadInner
          (transform_response rewrite getResp b).headers b
          (some (transform_response rewrite getResp b).body.length) true)
        body := [] } := rfl

/-- Reduction of the forwarder once the upstream response is known. -/
theorem forward_request_model_step (upstream : ReqT → Option RespT)
    (rewrite : Str → Option Str) (req : ReqT) (authority : Str)
    (b : ProxyBehavior) (resp : RespT)
    (hup : upstream { req with headers := outboundHeaders b authority req.headers }
      = some resp) :
    forward_request_model upstream rewrite false req authority b =
      (if req.method = MethodT.HEAD ∧ (resp.status = 405 ∨ resp.status = 501) then
        match upstream (build_get_fallback_request
            (outboundHeaders b authority req.headers) req.path req.version) with
        | some getResp =>
          ForwardResult.response (transform_head_response_from_get rewrite getResp b)
        | none => ForwardResult.response (transform_response rewrite resp b)
      else ForwardResult.response (transform_response rewrite resp b)) := by
  unfold forward_request_model
  rw [if_neg (by simp : ¬ (false = true))]
  dsimp only
  rw [hup]

/-- C4 as amended.  For a HEAD request whose upstream response is 405 or 501,
the forwarder re-issues the same URI, headers and version as a GET with
empty body and `Content-Length` removed, transforms the GET response, drains
the transformed body, and emits a response with that status and version, an
empty body, `Content-Length` equal to the drained length — but of the
payload metadata only `content-length` and `transfer-encoding` are removed
before recomputation: `etag` and `content-encoding` (and the other payload
names) survive from the transformed headers. -/
theorem head_fallback_emission
    (upstream : ReqT → Option RespT) (rewrite : Str → Option Str)
    (req : ReqT) (authority : Str) (b : ProxyBehavior) (resp getResp : RespT)
    (hhead : req.method = MethodT.HEAD)
    (hstatus : resp.status = 405 ∨ resp.status = 501)
    (hup : upstream { req with headers := outboundHeaders b authority req.headers }
      = some resp)
    (hfb : upstream (build_get_fallback_request
        (outboundHeaders b authority req.headers) req.path req.version)
      = some getResp) :
    forward_request_model upstream rewrite false req authority b =
      ForwardResult.response (transform_head_response_from_get rewrite getResp b)
    ∧ build_get_fallback_request (outboundHeaders b authority req.headers)
        req.path req.version =
      { method := MethodT.GET, path := req.path, version := req.version,
        headers := hremove (outboundHeaders b authority req.headers)
          "content-length".data,
        body := [] }
    ∧ (transform_head_response_from_get rewrite getResp b).body = []
    ∧ (transform_head_response_from_get rewrite getResp b).status =
        (transform_response rewrite getResp b).status
    ∧ (transform_head_response_from_get rewrite getResp b).version =
        (transform_response rewrite getResp b).version
    ∧ hget (transform_head_response_from_get rewrite getResp b).headers
        "content-length".data =
        some (natToStr (transform_response rewrite getResp b).body.length)
    ∧ hget (transform_head_response_from_get rewrite getResp b).headers
        "transfer-encoding".data = none
    ∧ hget (transform_head_response_from_get rewrite getResp b).headers
        "etag".data =
        hget (transform_response rewrite getResp b).headers "etag".data
    ∧ hget (transform_head_response_from_get rewrite getResp b).headers
        "content-encoding".data =
        hget (transform_response rewrite getResp b).headers
          "content-encoding".data := by
  refine ⟨?_, rfl, rfl, rfl, rfl, ?_, ?_, ?_, ?_⟩
  · rw [forward_request_model_step upstream rewrite req authority b resp hup,
      if_pos ⟨hhead, hstatus⟩, hfb]
  · rw [transform_head_eq]
    show hget (copyHeaders (buildHeadInner
      (transform_response rewrite getResp b).headers b
      (some (transform_response rewrite getResp b).body.length) true))
      "content-length".data = _
    rw [hget_copyHeaders_of_unique _ _ (keysUnique_buildHeadInner _ _ _ _),
      hget_buildHeadInner_contentLength]
  · rw [transform_head_eq]
    show hget (copyHeaders (buildHeadInner
      (transform_response rewrite getResp b).headers b
      (some (transform_response rewrite getResp b).body.length) true))
      "transfer-encoding".data = _
    rw [hget_copyHeaders_of_unique _ _ (keysUnique_buildHeadInner _ _ _ _),
      hget_buildHeadInner_transferEncoding]
  · rw [transform_head_eq]
    show hget (copyHeaders (buildHeadInner
      (transform_response rewrite getResp b).headers b
      (some (transform_response rewrite getResp b).body.length) true))
      "etag".data = _
    rw [hget_copyHeaders_of_unique _ _ (keysUnique_buildHeadInner _ _ _ _),
      hget_buildHeadInner_passthrough _ _ _ _ _ (by decide) (by decide)
        (by decide) (by decide),
      hget_reverse_of_unique _ _ (keysUnique_transform rewrite getResp b)]
  · rw [transform_head_eq]
    show hget (copyHeaders (buildHeadInner
      (transform_response rewrite getResp b).headers b
      (some (transform_response rewrite getResp b).body.length) true))
      "content-encoding".data = _
    rw [hget_copyHeaders_of_unique _ _ (keysUnique_buildHeadInner _ _ _ _),
      hget_buildHeadInner_passthrough _ _ _ _ _ (by decide) (by decide)
        (by decide) (by decide),
      hget_reverse_of_unique _ _ (keysUnique_transform rewrite getResp b)]

/-- Behavior of a plain (non-VSCode) Port route, as the dispatcher derives
it. -/
def headBehaviorEx : ProxyBehavior :=
  portBehavior { port := 5173, morph_id := "abc".data, skip_service_worker := false }

/-- A GET response carrying payload metadata the HEAD fallback is claimed to
drop. -/
def getRespEx : RespT :=
  { status := 200
    version := 11
    headers := [("content-type".data, "application/javascript".data),
                ("etag".data, "abc123".data),
                ("content-encoding".data, "gzip".data)]
    body := "x".data }

/-- A 405 Method Not Allowed upstream answer to the HEAD. -/
def resp405Ex : RespT := { status := 405, version := 11, headers := [], body := [] }

/-- The HEAD request of the fallback scenario. -/
def headReqEx : ReqT :=
  { method := MethodT.HEAD
    path := "/asset.js".data
    version := 11
    headers := [("host".data, "port-5173-abc.cmux.sh".data)]
    body := [] }

/-- An upstream that answers 405 to HEAD and the JavaScript response to
GET. -/
def upstreamEx : ReqT → Option RespT :=
  fun r => if r.method = MethodT.HEAD then some resp405Ex else some getRespEx

/-- C4 counterexample: in the emitted HEAD-fallback response the upstream
`etag` and `content-encoding` are still present, although the claim says all
payload metadata is dropped. -/
theorem head_fallback_keeps_etag_counterexample :
    forward_request_model upstreamEx (fun _ => none) false headReqEx
        "127.0.0.1:5173".data headBehaviorEx =
      ForwardResult.response
        (transform_head_response_from_get (fun _ => none) getRespEx headBehaviorEx)
    ∧ hget (transform_head_response_from_get (fun _ => none) getRespEx
        headBehaviorEx).headers "etag".data = some "abc123".data
    ∧ hget (transform_head_response_from_get (fun _ => none) getRespEx
        headBehaviorEx).headers "content-encoding".data = some "gzip".data := by
  decide

/-- Witness for the amended C4 at the concrete fallback scenario. -/
theorem head_fallback_emission_witness :
    forward_request_model upstreamEx (fun _ => none) false headReqEx
        "127.0.0.1:5173".data headBehaviorEx =
      ForwardResult.response
        (transform_head_response_from_get (fun _ => none) getRespEx headBehaviorEx)
    ∧ (transform_head_response_from_get (fun _ => none) getRespEx
        headBehaviorEx).body = [] := by
  have h := head_fallback_emission upstreamEx (fun _ => none) headReqEx
    "127.0.0.1:5173".data headBehaviorEx resp405Ex getRespEx
    (by decide) (by decide) (by decide) (by decide)
  exact ⟨h.1, h.2.2.1⟩

end GlobalProxy
